import Mathlib

/-!
# Verification of the pixiv downloader core (src/pixiv.py)

This file gives a shallow embedding, in Lean 4, of the download
orchestration core of `pixiv.py`:

* `download_file`   — the download executor (lines 102-117);
* `get_speed`       — throughput formatting (lines 64-76);
* `get_filepath`    — destination path construction (lines 163-184);
* `check_files`     — the planner (lines 187-202);
* `worker_step` / `run_workers` — the worker loop `download_threading`
  (lines 120-146), modelled as a small-step state machine over an
  explicit run state, with network nondeterminism supplied by a
  `fetch : ℕ → Option Response` oracle (the response, or `none` when the
  HTTP request itself raises before a response is obtained).

Python machine-level details are modelled explicitly: byte strings are
`List Char`, the filesystem is a list of `(path, content)` pairs, the
process-global mutable counters of the source become fields of
`RunState`, and Python `dict.get(url, 0)` / `dict[url] = v` become a
total function `String → ℕ` with pointwise update.
-/

namespace Pixiv

/-! ## Python string helpers

`str.split(sep)` and `str.split()` (whitespace mode, dropping empty
tokens), modelled structurally over `List Char` so that everything
kernel-evaluates. -/

/-- Split a character list at every character satisfying `p`, keeping
empty segments — the semantics of Python `str.split(sep)` for a
one-character separator when `p` tests equality with that separator. -/
def split_when (p : Char → Bool) : List Char → List (List Char)
  | [] => [[]]
  | c :: cs =>
      let r := split_when p cs
      if p c then [] :: r
      else (c :: r.headD []) :: r.tail

/-- Python `s.split('/')`. -/
def py_split_slash (s : String) : List String :=
  (split_when (fun c => c = '/') s.toList).map (fun l => String.mk l)

/-- Python `s.split('/')[-1]` — the last `'/'`-separated segment
(`str.split` never returns an empty list, so `[-1]` is total). -/
def last_url_segment (s : String) : String :=
  (py_split_slash s).getLastD ""

/-- Python `s.split()` — split on whitespace runs, dropping empties. -/
def py_split_ws (s : String) : List String :=
  ((split_when (fun c => c.isWhitespace) s.toList).filter
    (fun l => l ≠ [])).map (fun l => String.mk l)

/-- Python `os.path.basename` for `'/'`-separated paths. -/
def os_path_basename (p : String) : String := last_url_segment p

/-- Python `os.path.join(a, b)` for `'/'`-separated paths: an absolute
`b` discards `a`; otherwise the parts are glued with exactly one `'/'`. -/
def os_path_join (a b : String) : String :=
  if b.toList.headD ' ' = '/' then b
  else if a = "" then b
  else if a.toList.getLastD ' ' = '/' then a ++ b
  else a ++ "/" ++ b

/-! ## The download executor: `download_file` (pixiv.py lines 102-117)

```python
def download_file(url, filepath):
    headers = {'Referer': 'http://www.pixiv.net/'}
    r = requests.get(url, headers=headers, stream=True, timeout=PixivApi.timeout)
    if r.status_code == requests.codes.ok:
        total_length = r.headers.get('content-length')
        if total_length:
            data = []
            for chunk in r.iter_content(1024 * 16):
                data.append(chunk)
                with _SPEED_LOCK:
                    global _Global_Download
                    _Global_Download += len(chunk)
            with open(filepath, 'wb') as f:
                list(map(f.write, data))
    else:
        raise ConnectionError('\r', _('Connection error: %s') % r.status_code)
```

The HTTP response is modelled by `Response`: its status code, the
optional `content-length` header, the list of body chunks that the
connection delivers, and a flag `truncated` meaning that the connection
breaks while iterating the body (so `iter_content` raises after the
listed chunks).  `requests.codes.ok` is the literal 200.  The
filesystem is a list of `(path, bytes)` pairs; the shared counter
`_Global_Download` is threaded through explicitly. -/

/-- One HTTP response as `download_file` observes it. -/
structure Response where
  status : ℕ
  contentLength : Option ℕ
  chunks : List (List Char)
  truncated : Bool
deriving DecidableEq

/-- The exceptions `download_file` can raise: the explicit
`ConnectionError` on a non-200 status, or a network exception escaping
from `iter_content` when the connection breaks mid-body. -/
inductive DownloadError where
  | connectionError (status : ℕ)
  | networkFailure
deriving DecidableEq

/-- `requests.codes.ok` — the literal HTTP status 200. -/
def requests_codes_ok : ℕ := 200

/-- Model of `download_file`.  Input: the observed response, the
destination path, the filesystem, and the current `_Global_Download`
counter.  Output: the outcome (normal return or raised exception), the
new filesystem and the new counter.  The body is buffered in `data` and
the file is opened and written only after the last chunk arrived, so a
write happens only on the fully successful path. -/
def download_file (resp : Response) (filepath : String)
    (files : List (String × List Char)) (globalDownload : ℕ) :
    Except DownloadError Unit × List (String × List Char) × ℕ :=
  if resp.status = requests_codes_ok then
    match resp.contentLength with
    | some _ =>
        let g := globalDownload + (resp.chunks.map List.length).sum
        if resp.truncated then (Except.error DownloadError.networkFailure, files, g)
        else (Except.ok (), (filepath, resp.chunks.flatten) :: files, g)
    | none => (Except.ok (), files, globalDownload)
  else (Except.error (DownloadError.connectionError resp.status), files, globalDownload)

/-- The spec's notion of HTTP success: "a 2xx-equivalent status". -/
def statusIs2xx (status : ℕ) : Prop := 200 ≤ status ∧ status < 300

instance : DecidablePred statusIs2xx := fun s => by
  unfold statusIs2xx; infer_instance

/-- A concrete response with a 2xx success status that is not 200. -/
def resp204 : Response :=
  { status := 204, contentLength := some 1, chunks := [['x']], truncated := false }

/-! ## Throughput formatting: `get_speed` (pixiv.py lines 64-76)

```python
def get_speed(t0):
    with _SPEED_LOCK:
        global _Global_Download
        down = _Global_Download
        _Global_Download = 0
    speed = down / t0
    if speed == 0:
        return '%8.2f /s' % 0
    units = [' B', 'KB', 'MB', 'GB', 'TB', 'PB']
    unit = math.floor(math.log(speed, 1024.0))
    speed /= math.pow(1024.0, unit)
    return '%6.2f %s/s' % (speed, units[unit])
```

The drained byte counter `down` and the elapsed time `t0` are modelled
as rationals; `math.floor(math.log(speed, 1024.0))` is `Int.log 1024`
(the floor of the base-1024 logarithm).  `units[unit]` is Python list
indexing, which accepts negative indices counting from the end; this is
modelled by `py_index`.  The output is modelled as the pair of the
scaled value handed to the `'%6.2f'` format (which rounds it to two
decimals, see `rendered_hundredths`) and the chosen unit string. -/

/-- Python list indexing `l[i]`: a negative `i` counts from the end;
out-of-range indexing raises `IndexError`, modelled by `none`. -/
def py_index (l : List String) (i : ℤ) : Option String :=
  if 0 ≤ i then l[i.toNat]?
  else if -i ≤ (l.length : ℤ) then l[l.length - (-i).toNat]? else none

/-- The `units` list of `get_speed`. -/
def speed_units : List String := [" B", "KB", "MB", "GB", "TB", "PB"]

/-- What `get_speed` returns: the early-out zero line, a value/unit
pair handed to `'%6.2f %s/s'`, or an `IndexError` from `units[unit]`. -/
inductive SpeedDisplay where
  | zero : SpeedDisplay
  | formatted (value : ℚ) (unitName : String) : SpeedDisplay
  | indexError : SpeedDisplay
deriving DecidableEq

/-- Model of `get_speed`, taking the drained byte count `down` and the
elapsed seconds `t0` explicitly. -/
def get_speed (down t0 : ℚ) : SpeedDisplay :=
  if down / t0 = 0 then SpeedDisplay.zero
  else
    match py_index speed_units (Int.log 1024 (down / t0)) with
    | some u =>
        SpeedDisplay.formatted
          ((down / t0) / (1024 : ℚ) ^ Int.log 1024 (down / t0)) u
    | none => SpeedDisplay.indexError

/-- The integer displayed in the hundredths by a two-decimal format
such as Python's `'%6.2f'`: the value times 100, rounded to nearest. -/
def rendered_hundredths (q : ℚ) : ℤ := round (q * 100)

/-! ## Destination paths: `get_filepath` (pixiv.py lines 163-184)

```python
def get_filepath(url, illustration, save_path='.', add_user_folder=False, add_rank=False):
    if add_user_folder:
        user_id = illustration.user_id
        user_name = illustration.user_name
        current_path = get_default_save_path()
        cur_dirs = list(filter(os.path.isdir, [os.path.join(current_path, i) for i in os.listdir(current_path)]))
        cur_user_ids = [os.path.basename(cur_dir).split()[0] for cur_dir in cur_dirs]
        if user_id not in cur_user_ids:
            dir_name = re.sub(r'[<>:"/\\|\?\*]', ' ', user_id + ' ' + user_name)
        else:
            dir_name = list(i for i in cur_dirs if os.path.basename(i).split()[0] == user_id)[0]
        save_path = os.path.join(save_path, dir_name)
    filename = url.split('/')[-1]
    if add_rank:
        filename = illustration.rank + ' - ' + filename
    filepath = os.path.join(save_path, filename)
    return filename, filepath
```

The filesystem reads are passed in explicitly: `current_path` is the
value of `get_default_save_path()` and `dirEntries` is the list of
entries of `os.listdir(current_path)` that are directories (the
`filter(os.path.isdir, ...)` step).  `basename(...).split()[0]` raises
`IndexError` on an all-whitespace name, so theorems about this function
assume every scanned name has at least one whitespace-delimited token;
under that assumption `headD ""` below agrees with Python. -/

/-- The subset of `PixivIllustModel` (model.py) that `get_filepath`
and `check_files` read. -/
structure PixivIllustModel where
  user_id : String
  user_name : String
  rank : String
  image_urls : List String
deriving DecidableEq

/-- `re.sub(r'[<>:"/\\|\?\*]', ' ', s)` applied characterwise: each
filesystem-illegal character is replaced by a space. -/
def sanitize_char (c : Char) : Char :=
  if c = '<' ∨ c = '>' ∨ c = ':' ∨ c = '"' ∨ c = '/' ∨ c = '\\' ∨
      c = '|' ∨ c = '?' ∨ c = '*' then ' ' else c

/-- `re.sub(r'[<>:"/\\|\?\*]', ' ', s)` on a whole string. -/
def sanitize_dir_name (s : String) : String :=
  String.mk (s.toList.map sanitize_char)

/-- The leading whitespace-delimited token of a directory name,
`basename(d).split()[0]` (with `""` standing in for the `IndexError`
case of an all-whitespace name). -/
def leading_token (d : String) : String :=
  (py_split_ws (os_path_basename d)).headD ""

/-- Model of `get_filepath`. -/
def get_filepath (url : String) (illustration : PixivIllustModel)
    (save_path : String) (add_user_folder add_rank : Bool)
    (current_path : String) (dirEntries : List String) : String × String :=
  let save_path :=
    if add_user_folder then
      let cur_dirs := dirEntries.map (fun i => os_path_join current_path i)
      let cur_user_ids := cur_dirs.map leading_token
      let dir_name :=
        if illustration.user_id ∉ cur_user_ids then
          sanitize_dir_name (illustration.user_id ++ " " ++ illustration.user_name)
        else
          (cur_dirs.filter (fun i => leading_token i = illustration.user_id)).headD ""
      os_path_join save_path dir_name
    else save_path
  let filename := last_url_segment url
  let filename :=
    if add_rank then illustration.rank ++ " - " ++ filename else filename
  (filename, os_path_join save_path filename)

/-! ## The planner: `check_files` (pixiv.py lines 187-202)

```python
def check_files(illustrations, save_path='.', add_user_folder=False, add_rank=False):
    download_queue = queue.Queue()
    count = 0
    if illustrations:
        for illustration in illustrations.copy():
            if not illustration.image_urls:
                illustrations.remove(illustration)
            else:
                for url in illustration.image_urls.copy():
                    filename, filepath = get_filepath(url, illustration, save_path, add_user_folder, add_rank)
                    if os.path.exists(filepath):
                        illustration.image_urls.remove(url)
                    else:
                        download_queue.put({'url': url, 'file': filename, 'path': filepath})
                        count += 1
    return download_queue, count
```

`os.path.exists` is modelled by membership in an `existing` list of
paths (constant throughout the planning pass, which writes nothing).
The source iterates over copies while removing from the originals;
since the existence check is constant during the pass, the surviving
`image_urls` are exactly a filter, and the mutated `illustrations` list
is returned explicitly as the first component.  An illustration whose
`image_urls` is empty **on entry** is removed from the list; the inner
per-URL loop of the `else` branch is `plan_urls`. -/

/-- One queued task, the dict `{'url': url, 'file': filename, 'path':
filepath}` put on `download_queue`. -/
structure DownloadTask where
  url : String
  file : String
  path : String
deriving DecidableEq

/-- The inner loop of `check_files` over one illustration's URL list:
returns the URLs kept in `image_urls`, the tasks enqueued, and the
count of enqueued tasks, in iteration order. -/
def plan_urls (illustration : PixivIllustModel) (save_path : String)
    (add_user_folder add_rank : Bool) (current_path : String)
    (dirEntries : List String) (existing : List String) :
    List String → List String × List DownloadTask × ℕ
  | [] => ([], [], 0)
  | url :: rest =>
      let fnfp := get_filepath url illustration save_path add_user_folder
        add_rank current_path dirEntries
      let r := plan_urls illustration save_path add_user_folder add_rank
        current_path dirEntries existing rest
      if fnfp.2 ∈ existing then r
      else (url :: r.1, DownloadTask.mk url fnfp.1 fnfp.2 :: r.2.1, r.2.2 + 1)

/-- Model of `check_files`: returns the illustration list as left in
memory after the pass, the download queue contents in order, and the
count of enqueued tasks. -/
def check_files (illustrations : List PixivIllustModel) (save_path : String)
    (add_user_folder add_rank : Bool) (current_path : String)
    (dirEntries : List String) (existing : List String) :
    List PixivIllustModel × List DownloadTask × ℕ :=
  match illustrations with
  | [] => ([], [], 0)
  | illustration :: rest =>
      let tl := check_files rest save_path add_user_folder add_rank
        current_path dirEntries existing
      if illustration.image_urls = [] then tl
      else
        let hd := plan_urls illustration save_path add_user_folder add_rank
          current_path dirEntries existing illustration.image_urls
        ({ illustration with image_urls := hd.1 } :: tl.1,
         hd.2.1 ++ tl.2.1, hd.2.2 + tl.2.2)

/-! ## The worker loop: `download_threading` (pixiv.py lines 120-146)

```python
_MAX_ERROR_COUNT = 5

def download_threading(download_queue):
    global _finished_download
    while not download_queue.empty():
        illustration = download_queue.get()
        filepath = illustration['path']
        filename = illustration['file']
        url = illustration['url']
        count = _error_count.get(url, 0)
        if count < _MAX_ERROR_COUNT:
            if not os.path.exists(filepath):
                with _CREATE_FOLDER_LOCK:
                    if not os.path.exists(os.path.dirname(filepath)):
                        os.makedirs(os.path.dirname(filepath))
                try:
                    download_file(url, filepath)
                    with _PROGRESS_LOCK:
                        _finished_download += 1
                except Exception as e:
                    if count < _MAX_ERROR_COUNT:
                        print(_('\r%s => %s download error, retry') % (e, filename))
                        download_queue.put(illustration)
                        _error_count[url] = count + 1
        else:
            print(url, 'reach max retries, canceled')
            with _PROGRESS_LOCK:
                _finished_download += 1
        download_queue.task_done()
```

One processing of one dequeued task is `worker_step`; a run is the
iteration `run_workers`.  The state collects the task queue (FIFO:
`put` appends at the back), the process-global `_error_count` dict
(modelled as a total function with default 0, matching
`dict.get(url, 0)`), the `_finished_download` counter, the filesystem
and the `_Global_Download` byte counter.  Two instrumentation fields
record observable events: `fetchLog` lists the URLs passed to
`download_file` (or to the raising `requests.get`), newest first, and
`retired` lists the URLs for which the "reach max retries, canceled"
diagnostic was printed.  Network nondeterminism is an oracle
`fetch : ℕ → Option Response` giving the outcome of the n-th fetch
attempt of the run: `none` when `requests.get` itself raises
(connection failure / timeout before a response), otherwise the
response `download_file` observes. -/

/-- `_MAX_ERROR_COUNT` (pixiv.py line 50). -/
def MAX_ERROR_COUNT : ℕ := 5

/-- The shared state of one worker-pool run. -/
structure RunState where
  queue : List DownloadTask
  error_count : String → ℕ
  finished : ℕ
  files : List (String × List Char)
  globalDownload : ℕ
  fetchLog : List String
  retired : List String

/-- One iteration of the `while` body of `download_threading`: dequeue
one task and process it.  On an empty queue the state is unchanged
(the worker exits its loop). -/
def worker_step (fetch : ℕ → Option Response) (s : RunState) : RunState :=
  match s.queue with
  | [] => s
  | task :: rest =>
      let url := task.url
      let filepath := task.path
      let count := s.error_count url
      if count < MAX_ERROR_COUNT then
        if filepath ∈ s.files.map Prod.fst then { s with queue := rest }
        else
          match fetch s.fetchLog.length with
          | none =>
              if count < MAX_ERROR_COUNT then
                { s with queue := rest ++ [task],
                         error_count := fun u => if u = url then count + 1
                           else s.error_count u,
                         fetchLog := url :: s.fetchLog }
              else { s with queue := rest, fetchLog := url :: s.fetchLog }
          | some resp =>
              let r := download_file resp filepath s.files s.globalDownload
              match r.1 with
              | Except.ok _ =>
                  { s with queue := rest, finished := s.finished + 1,
                           files := r.2.1, globalDownload := r.2.2,
                           fetchLog := url :: s.fetchLog }
              | Except.error _ =>
                  if count < MAX_ERROR_COUNT then
                    { s with queue := rest ++ [task],
                             error_count := fun u => if u = url then count + 1
                               else s.error_count u,
                             files := r.2.1, globalDownload := r.2.2,
                             fetchLog := url :: s.fetchLog }
                  else { s with queue := rest, files := r.2.1,
                                globalDownload := r.2.2,
                                fetchLog := url :: s.fetchLog }
      else
        { s with queue := rest, finished := s.finished + 1,
                 retired := url :: s.retired }

/-- `n` iterations of `worker_step`.  Since `worker_step` is the
identity on an empty queue, this computes the whole run for any large
enough `n` (termination is proved, not assumed: see
`C1_amended_completion`). -/
def run_workers (fetch : ℕ → Option Response) : ℕ → RunState → RunState
  | 0, s => s
  | n + 1, s => run_workers fetch n (worker_step fetch s)

/-- The initial state of a run over a planned queue: counters reset by
`download_illustrations` (lines 223-226), a filesystem `fs`, and the
process-global `_error_count` carried over as `ec`. -/
def init_state (q : List DownloadTask) (ec : String → ℕ)
    (fs : List (String × List Char)) : RunState :=
  { queue := q, error_count := ec, finished := 0, files := fs,
    globalDownload := 0, fetchLog := [], retired := [] }

/-- A fetch attempt that fails: the HTTP request itself raises
(`none`), or `download_file` raises on the observed response — a
non-200 status, or a 200 status whose body (present per content-length)
is cut off by a connection failure.  (A 200 response without
content-length is a *successful* no-op, not a failure.) -/
def fetch_attempt_fails : Option Response → Prop
  | none => True
  | some resp => resp.status ≠ 200 ∨
      (resp.contentLength.isSome ∧ resp.truncated = true)

instance (o : Option Response) : Decidable (fetch_attempt_fails o) := by
  cases o <;> unfold fetch_attempt_fails <;> infer_instance

/-- Bytes added to `_Global_Download` by one failing fetch attempt:
chunks received before the connection broke still count (status-200
case); a failed request or a non-200 status adds nothing. -/
def failed_attempt_bytes : Option Response → ℕ
  | none => 0
  | some resp =>
      if resp.status = 200 then (resp.chunks.map List.length).sum else 0

/-! ## Completion: invariants of a whole run

`finished + |queue|` never increases (each dequeue is matched by at
most one completion), which bounds `finished` by the initial task
count.  For termination and exact completion we need the per-task
retry budget as a decreasing measure, and the observation that the
skip-without-counting branch (claim C9) never fires when all queued
destination paths are pairwise distinct and absent from disk. -/

/-- Remaining processing budget of one queued task: one terminal step
plus the retries its URL still has. -/
def task_weight (s : RunState) (t : DownloadTask) : ℕ :=
  1 + (MAX_ERROR_COUNT - s.error_count t.url)

/-- Decreasing measure of a run state. -/
def state_measure (s : RunState) : ℕ :=
  (s.queue.map (task_weight s)).sum

/-- All queued destination paths are pairwise distinct. -/
def distinct_paths (s : RunState) : Prop :=
  s.queue.Pairwise (fun a b => a.path ≠ b.path)

/-- No queued destination path is already on disk (what the planner
guarantees at enqueue time). -/
def paths_fresh (s : RunState) : Prop :=
  ∀ t ∈ s.queue, t.path ∉ s.files.map Prod.fst

/-- An always-succeeding server. -/
def cex_fetch : ℕ → Option Response :=
  fun _ => some ⟨200, some 1, [['x']], false⟩

/-- Two planned tasks whose destination paths collide (the situation
§9 of the spec flags: same computed destination from two
illustrations), both absent from disk at planning time. -/
def cex_init : RunState :=
  init_state [⟨"u1", "f", "p"⟩, ⟨"u2", "f", "p"⟩] (fun _ => 0) []

/-- The completion invariant exactly as the spec states it, for one
run: `finishedTasks` never exceeds `T`, and the run terminates —
queue drained and the reporter's exit condition `finished == T`
reached. -/
def spec_completion_claim (fetch : ℕ → Option Response) (s : RunState)
    (T : ℕ) : Prop :=
  (∀ n, (run_workers fetch n s).finished ≤ T) ∧
  ∃ n, (run_workers fetch n s).queue = [] ∧
    (run_workers fetch n s).finished = T

/-! ## Theorems -/

/-- C4 counterexample: on a 204 response — a success under the spec's
"any 2xx-equivalent status" — `download_file` raises a
`ConnectionError`, so "fails with a transfer error exactly when the
HTTP response status is not a success status, where success is any
2xx-equivalent status" is false on the code: the code's success test is
`status == requests.codes.ok`, i.e. status 200 exactly. -/
theorem C4_counterexample :
    (download_file resp204 "p" [] 0).1
      = Except.error (DownloadError.connectionError 204) ∧
    statusIs2xx resp204.status ∧
    ¬ ((∃ e, (download_file resp204 "p" [] 0).1 = Except.error e) ↔
        ¬ statusIs2xx resp204.status) := by
  refine ⟨rfl, by decide, ?_⟩
  intro h
  exact (h.mp ⟨DownloadError.connectionError 204, rfl⟩) (by decide)

/-- C4 (amended): `download_file url filepath` fails with a transfer
error exactly when the HTTP status is not 200 (`requests.codes.ok`), or
when the status is 200 with a content-length present and the connection
breaks while the body is being received; on a non-200 status no file is
written. -/
theorem C4_amended_transfer_error (resp : Response) (filepath : String)
    (files : List (String × List Char)) (g : ℕ) :
    ((∃ e, (download_file resp filepath files g).1 = Except.error e) ↔
      (resp.status ≠ 200 ∨ (resp.contentLength.isSome ∧ resp.truncated = true))) ∧
    (resp.status ≠ 200 → (download_file resp filepath files g).2.1 = files) := by
  constructor
  · unfold download_file requests_codes_ok
    rcases resp with ⟨st, cl, ch, tr⟩
    by_cases hst : st = 200 <;> rcases cl with _ | n <;> cases tr <;>
      simp [hst]
  · intro h
    unfold download_file requests_codes_ok
    simp [h]

/-- C4 witness: the amended statement evaluated on a concrete failing
response (status 404). -/
theorem C4_amended_transfer_error_witness :
    ((∃ e, (download_file ⟨404, some 3, [], false⟩ "p" [] 0).1 = Except.error e) ↔
      ((404 : ℕ) ≠ 200 ∨ ((some 3 : Option ℕ).isSome ∧ false = true))) ∧
    ((404 : ℕ) ≠ 200 → (download_file ⟨404, some 3, [], false⟩ "p" [] 0).2.1 = []) :=
  C4_amended_transfer_error ⟨404, some 3, [], false⟩ "p" [] 0

/-- C5: on a success (200) response with no content-length header,
`download_file` is a no-op: it raises nothing, writes no file, and does
not touch the shared byte counter. -/
theorem C5_missing_content_length (resp : Response) (filepath : String)
    (files : List (String × List Char)) (g : ℕ)
    (h200 : resp.status = 200) (hcl : resp.contentLength = none) :
    download_file resp filepath files g = (Except.ok (), files, g) := by
  unfold download_file requests_codes_ok
  simp [h200, hcl]

/-- C5 witness: the no-op behaviour on a concrete 200 response with no
content-length. -/
theorem C5_missing_content_length_witness :
    download_file ⟨200, none, [['a']], false⟩ "p" [("q", ['b'])] 7
      = (Except.ok (), [("q", ['b'])], 7) :=
  C5_missing_content_length ⟨200, none, [['a']], false⟩ "p" [("q", ['b'])] 7 rfl rfl

/-- C10: whenever `download_file` raises — non-200 status, or a
connection failure at any point while receiving body chunks — the
filesystem is unchanged: the destination file is neither created nor
modified, because the body is buffered in memory and the file is opened
and written only after the last chunk has been received. -/
theorem C10_atomic_on_error (resp : Response) (filepath : String)
    (files : List (String × List Char)) (g : ℕ) (e : DownloadError)
    (h : (download_file resp filepath files g).1 = Except.error e) :
    (download_file resp filepath files g).2.1 = files := by
  revert h
  unfold download_file requests_codes_ok
  rcases resp with ⟨st, cl, ch, tr⟩
  by_cases hst : st = 200 <;> rcases cl with _ | n <;> cases tr <;>
    simp [hst]

/-- C10 witness: filesystem unchanged on a concrete mid-body connection
failure (status 200, content-length present, truncated body). -/
theorem C10_atomic_on_error_witness :
    (download_file ⟨200, some 9, [['a'], ['b']], true⟩ "p" [("q", ['c'])] 0).2.1
      = [("q", ['c'])] :=
  C10_atomic_on_error ⟨200, some 9, [['a'], ['b']], true⟩ "p" [("q", ['c'])] 0
    DownloadError.networkFailure rfl

/-- Entries of `speed_units` at natural indices below its length. -/
theorem speed_units_getElem (k : ℕ) (hk : k < 6) :
    speed_units[k]? = some (speed_units.getD k "") := by
  interval_cases k <;> rfl

/-- C8 counterexample: for the positive measured speed 1/1024 B/s (one
byte over a 1024-second tick), `floor(log1024(speed)) = -1`, which is
not a valid position in the unit list B/KB/MB/GB/TB/PB — yet the code
renders the PB unit (Python `units[-1]` counts from the end), showing
"the unit is chosen as floor(log base 1024 of the speed)" fails for
speeds below 1 B/s. -/
theorem C8_counterexample :
    get_speed 1 1024 = SpeedDisplay.formatted 1 "PB" ∧
    Int.log 1024 ((1 : ℚ) / 1024) = -1 ∧
    ¬ ∃ k : ℕ, (k : ℤ) = Int.log 1024 ((1 : ℚ) / 1024) ∧
        speed_units[k]? = some "PB" := by
  have hcast : ((1 : ℚ) / 1024) = ((1024 : ℕ) : ℚ) ^ (-1 : ℤ) := by
    rw [zpow_neg_one]
    norm_num
  have hlog : Int.log 1024 ((1 : ℚ) / 1024) = -1 := by
    rw [hcast]
    exact Int.log_zpow (by norm_num) (-1)
  refine ⟨?_, hlog, ?_⟩
  · unfold get_speed
    rw [if_neg (by norm_num), hlog]
    have hpy : py_index speed_units (-1) = some "PB" := by decide
    rw [hpy]
    have hval : ((1 : ℚ) / 1024) / (1024 : ℚ) ^ (-1 : ℤ) = 1 := by
      rw [zpow_neg_one]
      norm_num
    rw [hval]
  · rintro ⟨k, hk, -⟩
    rw [hlog] at hk
    omega

/-- C8 (amended): for every measured speed of at least 1 B/s and below
1024^6 B/s, `get_speed` picks the unit at position
`floor(log1024(speed))` of B/KB/MB/GB/TB/PB and hands the speed scaled
by `1024 ^ floor(log1024(speed))` to the two-decimal format; that floor
lies in [0, 6).  (For positive speeds below 1 B/s the floor is -1 and
the code instead renders the PB unit via Python negative indexing.) -/
theorem C8_amended_unit_choice (down t0 : ℚ) (h1 : 1 ≤ down / t0)
    (h6 : down / t0 < (1024 : ℚ) ^ (6 : ℤ)) :
    get_speed down t0 =
      SpeedDisplay.formatted
        ((down / t0) / (1024 : ℚ) ^ Int.log 1024 (down / t0))
        (speed_units.getD (Int.log 1024 (down / t0)).toNat "") ∧
    0 ≤ Int.log 1024 (down / t0) ∧ Int.log 1024 (down / t0) < 6 := by
  have h0 : (0 : ℚ) < down / t0 := lt_of_lt_of_le one_pos h1
  have hlog0 : 0 ≤ Int.log 1024 (down / t0) := by
    rw [Int.log_of_one_le_right _ h1]
    exact Int.natCast_nonneg _
  have h6' : down / t0 < ((1024 : ℕ) : ℚ) ^ (6 : ℤ) := by
    exact_mod_cast h6
  have hlog6 : Int.log 1024 (down / t0) < 6 :=
    (Int.lt_zpow_iff_log_lt (by norm_num) h0).mp h6'
  have htoNat : (Int.log 1024 (down / t0)).toNat < 6 := by omega
  have hpy : py_index speed_units (Int.log 1024 (down / t0)) =
      some (speed_units.getD (Int.log 1024 (down / t0)).toNat "") := by
    unfold py_index
    rw [if_pos hlog0]
    exact speed_units_getElem _ htoNat
  refine ⟨?_, hlog0, hlog6⟩
  unfold get_speed
  rw [if_neg (ne_of_gt h0), hpy]

/-- C8 witness: a measured speed of 2 500 000 bytes over a 1-second
tick renders with the MB unit (floor(log1024) = 2), and the scaled
value 2500000/1048576 rendered at two decimals is 2.38. -/
theorem C8_amended_unit_choice_witness :
    get_speed 2500000 1 =
      SpeedDisplay.formatted ((2500000 : ℚ) / 1048576) "MB" ∧
    rendered_hundredths ((2500000 : ℚ) / 1048576) = 238 := by
  have h := C8_amended_unit_choice 2500000 1 (by norm_num)
    (by norm_num)
  have hlog : Int.log 1024 ((2500000 : ℚ) / 1) = 2 := by
    rw [show ((2500000 : ℚ) / 1) = ((2500000 : ℕ) : ℚ) by norm_num,
      Int.log_natCast]
    have hnat : Nat.log 1024 2500000 = 2 :=
      Nat.log_eq_of_pow_le_of_lt_pow (by norm_num) (by norm_num)
    exact_mod_cast hnat
  constructor
  · have h1 := h.1
    rw [hlog] at h1
    have hval : ((2500000 : ℚ) / 1) / (1024 : ℚ) ^ (2 : ℤ) =
        (2500000 : ℚ) / 1048576 := by
      norm_num
    rw [hval] at h1
    simpa using h1
  · unfold rendered_hundredths
    rw [round_eq]
    rw [Int.floor_eq_iff]
    constructor <;> norm_num

/-- C7: the filename is the last `'/'`-separated segment of the URL,
with `"<rank> - "` prepended when the rank option is on; and when the
user-folder option is on and no scanned subdirectory has a leading
whitespace-delimited token equal to the user id, the file goes into a
new directory named `"<id> <name>"` with every character in
`<>:"/\|?*` replaced by a space. -/
theorem C7_destination_paths (url : String) (illustration : PixivIllustModel)
    (save_path current_path : String) (dirEntries : List String)
    (add_user_folder add_rank : Bool) :
    ((get_filepath url illustration save_path add_user_folder add_rank
        current_path dirEntries).1 =
      (if add_rank then illustration.rank ++ " - " ++ last_url_segment url
       else last_url_segment url)) ∧
    ((∀ d ∈ dirEntries.map (fun i => os_path_join current_path i),
        py_split_ws (os_path_basename d) ≠ []) →
      (∀ d ∈ dirEntries.map (fun i => os_path_join current_path i),
        leading_token d ≠ illustration.user_id) →
      get_filepath url illustration save_path true add_rank
          current_path dirEntries =
        (let filename :=
          if add_rank then illustration.rank ++ " - " ++ last_url_segment url
          else last_url_segment url
         (filename,
          os_path_join
            (os_path_join save_path
              (sanitize_dir_name
                (illustration.user_id ++ " " ++ illustration.user_name)))
            filename))) := by
  constructor
  · unfold get_filepath
    cases add_user_folder <;> cases add_rank <;> simp
  · intro _ hmiss
    have hnotin :
        illustration.user_id ∉
          (dirEntries.map (fun i => os_path_join current_path i)).map
            leading_token := by
      rw [List.mem_map]
      rintro ⟨d, hd, hEq⟩
      exact hmiss d hd hEq
    unfold get_filepath
    simp [hnotin]
    have hcond : ∀ x ∈ dirEntries,
        ¬ leading_token (os_path_join current_path x) = illustration.user_id :=
      fun x hx => hmiss _ (List.mem_map_of_mem _ hx)
    rw [if_pos hcond]

/-- C7 witness: concrete evaluation — url `.../123_p0.jpg`, rank `3`,
user id `77`, user name `a/b`, one scanned directory `99 other`. -/
theorem C7_destination_paths_witness :
    ((get_filepath "http://x/y/123_p0.jpg" ⟨"77", "a/b", "3", []⟩
        "base" true true "cur" ["99 other"]).1 = "3 - 123_p0.jpg") ∧
    (get_filepath "http://x/y/123_p0.jpg" ⟨"77", "a/b", "3", []⟩
        "base" true true "cur" ["99 other"] =
      ("3 - 123_p0.jpg", "base/77 a b/3 - 123_p0.jpg")) := by
  have h := C7_destination_paths "http://x/y/123_p0.jpg" ⟨"77", "a/b", "3", []⟩
    "base" "cur" ["99 other"] true true
  refine ⟨?_, ?_⟩
  · rw [h.1]
    decide
  · rw [h.2 (by decide) (by decide)]
    decide

/-- `plan_urls` computed in closed form: the kept URLs are the filter
of the non-existing destinations, the tasks are those URLs paired with
their `get_filepath` results, and the count is their number. -/
theorem plan_urls_eq (illustration : PixivIllustModel) (save_path : String)
    (add_user_folder add_rank : Bool) (current_path : String)
    (dirEntries : List String) (existing : List String) (urls : List String) :
    plan_urls illustration save_path add_user_folder add_rank current_path
        dirEntries existing urls =
      (urls.filter (fun url => (get_filepath url illustration save_path
          add_user_folder add_rank current_path dirEntries).2 ∉ existing),
       (urls.filter (fun url => (get_filepath url illustration save_path
          add_user_folder add_rank current_path dirEntries).2 ∉ existing)).map
         (fun url => DownloadTask.mk url
           (get_filepath url illustration save_path add_user_folder add_rank
             current_path dirEntries).1
           (get_filepath url illustration save_path add_user_folder add_rank
             current_path dirEntries).2),
       (urls.filter (fun url => (get_filepath url illustration save_path
          add_user_folder add_rank current_path dirEntries).2 ∉ existing)).length) := by
  induction urls with
  | nil => rfl
  | cons url rest ih =>
      unfold plan_urls
      rw [ih]
      by_cases h : (get_filepath url illustration save_path add_user_folder
          add_rank current_path dirEntries).2 ∈ existing <;>
        simp [h, List.filter_cons]

/-- C3 counterexample: one illustration with the single URL
`"a/b.jpg"` whose destination `"./b.jpg"` already exists.  The URL is
removed, but the illustration — whose URL set is now empty — is NOT
dropped from the list, so "each illustration with an empty URL set is
dropped from the list" fails on the code (the emptiness test runs
before the URL filtering, not after). -/
theorem C3_counterexample :
    (check_files [⟨"1", "n", "", ["a/b.jpg"]⟩] "." false false "" []
        ["./b.jpg"]).1 = [⟨"1", "n", "", []⟩] ∧
    ¬ (∀ i ∈ (check_files [⟨"1", "n", "", ["a/b.jpg"]⟩] "." false false "" []
        ["./b.jpg"]).1, i.image_urls ≠ []) := by
  refine ⟨by decide, ?_⟩
  intro h
  exact h ⟨"1", "n", "", []⟩ (by decide) rfl

/-- C3 (amended): each URL whose computed destination path already
exists is removed from its illustration's URL set and not enqueued;
each illustration whose URL set is empty when the planner reaches it is
dropped from the list (an illustration whose URL set becomes empty
through the filtering remains, with an empty set); consequently, when
every destination already exists the planner returns count 0 and
enqueues nothing. -/
theorem C3_amended_planner (illustrations : List PixivIllustModel)
    (save_path : String) (add_user_folder add_rank : Bool)
    (current_path : String) (dirEntries : List String)
    (existing : List String) :
    ((check_files illustrations save_path add_user_folder add_rank
        current_path dirEntries existing).1 =
      (illustrations.filter (fun i => ¬ i.image_urls = [])).map
        (fun i => { i with image_urls :=
          i.image_urls.filter (fun url => (get_filepath url i save_path
            add_user_folder add_rank current_path dirEntries).2 ∉ existing) })) ∧
    ((check_files illustrations save_path add_user_folder add_rank
        current_path dirEntries existing).2.1 =
      ((illustrations.filter (fun i => ¬ i.image_urls = [])).map
        (fun i => (i.image_urls.filter (fun url => (get_filepath url i save_path
            add_user_folder add_rank current_path dirEntries).2 ∉ existing)).map
          (fun url => DownloadTask.mk url
            (get_filepath url i save_path add_user_folder add_rank
              current_path dirEntries).1
            (get_filepath url i save_path add_user_folder add_rank
              current_path dirEntries).2))).flatten) ∧
    ((check_files illustrations save_path add_user_folder add_rank
        current_path dirEntries existing).2.2 =
      (check_files illustrations save_path add_user_folder add_rank
        current_path dirEntries existing).2.1.length) ∧
    ((∀ i ∈ illustrations, ∀ url ∈ i.image_urls,
        (get_filepath url i save_path add_user_folder add_rank
          current_path dirEntries).2 ∈ existing) →
      (check_files illustrations save_path add_user_folder add_rank
          current_path dirEntries existing).2.1 = [] ∧
      (check_files illustrations save_path add_user_folder add_rank
          current_path dirEntries existing).2.2 = 0) := by
  induction illustrations with
  | nil => exact ⟨rfl, rfl, rfl, fun _ => ⟨rfl, rfl⟩⟩
  | cons illustration rest ih =>
      obtain ⟨ih1, ih2, ih3, ih4⟩ := ih
      by_cases h : illustration.image_urls = []
      · refine ⟨?_, ?_, ?_, ?_⟩
        · unfold check_files
          rw [if_pos h, ih1, List.filter_cons]
          simp [h]
        · unfold check_files
          rw [if_pos h, ih2, List.filter_cons]
          simp [h]
        · unfold check_files
          rw [if_pos h]
          exact ih3
        · intro hall
          unfold check_files
          rw [if_pos h]
          exact ih4 (fun i hi => hall i (List.mem_cons_of_mem _ hi))
      · have hfc : check_files (illustration :: rest) save_path
            add_user_folder add_rank current_path dirEntries existing =
            ({ illustration with image_urls :=
                illustration.image_urls.filter (fun url =>
                  (get_filepath url illustration save_path add_user_folder
                    add_rank current_path dirEntries).2 ∉ existing) } ::
              (check_files rest save_path add_user_folder add_rank
                current_path dirEntries existing).1,
             (illustration.image_urls.filter (fun url =>
                (get_filepath url illustration save_path add_user_folder
                  add_rank current_path dirEntries).2 ∉ existing)).map
               (fun url => DownloadTask.mk url
                 (get_filepath url illustration save_path add_user_folder
                   add_rank current_path dirEntries).1
                 (get_filepath url illustration save_path add_user_folder
                   add_rank current_path dirEntries).2) ++
              (check_files rest save_path add_user_folder add_rank
                current_path dirEntries existing).2.1,
             (illustration.image_urls.filter (fun url =>
                (get_filepath url illustration save_path add_user_folder
                  add_rank current_path dirEntries).2 ∉ existing)).length +
              (check_files rest save_path add_user_folder add_rank
                current_path dirEntries existing).2.2) := by
          simp only [check_files]
          rw [if_neg h, plan_urls_eq]
        refine ⟨?_, ?_, ?_, ?_⟩
        · rw [hfc]
          simp only [List.filter_cons]
          rw [ih1]
          simp [h]
        · rw [hfc]
          simp only [List.filter_cons]
          rw [ih2]
          simp [h]
        · rw [hfc]
          simp only []
          rw [ih3]
          simp [List.length_append, List.length_map]
        · intro hall
          have hhead : illustration.image_urls.filter (fun url =>
              (get_filepath url illustration save_path add_user_folder
                add_rank current_path dirEntries).2 ∉ existing) = [] := by
            rw [List.filter_eq_nil_iff]
            intro url hu
            simp only [decide_not, Bool.not_eq_true', decide_eq_false_iff_not,
              not_not]
            exact hall illustration (List.mem_cons_self _ _) url hu
          have htl := ih4 (fun i hi => hall i (List.mem_cons_of_mem _ hi))
          rw [hfc, hhead]
          simp [htl.1, htl.2]

/-- C3 witness: two illustrations (one with a URL whose destination
exists, one with an empty URL set) against a filesystem that already
has every destination — the planner keeps the emptied illustration,
enqueues nothing and counts 0. -/
theorem C3_amended_planner_witness :
    ((check_files [⟨"1", "n", "", ["u/x.png"]⟩, ⟨"2", "m", "", []⟩] "."
        false false "" [] ["./x.png"]).1 =
      [⟨"1", "n", "", []⟩]) ∧
    ((check_files [⟨"1", "n", "", ["u/x.png"]⟩, ⟨"2", "m", "", []⟩] "."
        false false "" [] ["./x.png"]).2.1 = []) ∧
    ((check_files [⟨"1", "n", "", ["u/x.png"]⟩, ⟨"2", "m", "", []⟩] "."
        false false "" [] ["./x.png"]).2.2 = 0) := by
  have h := C3_amended_planner
    [⟨"1", "n", "", ["u/x.png"]⟩, ⟨"2", "m", "", []⟩] "." false false "" []
    ["./x.png"]
  have hall := h.2.2.2 (by decide)
  refine ⟨?_, hall.1, hall.2⟩
  rw [h.1]
  decide

/-- A run over an empty queue is already finished: every worker exits
immediately. -/
theorem run_workers_empty (fetch : ℕ → Option Response) (n : ℕ) (s : RunState)
    (h : s.queue = []) : run_workers fetch n s = s := by
  induction n with
  | zero => rfl
  | succ n ih =>
      have hstep : worker_step fetch s = s := by
        unfold worker_step
        rw [h]
      unfold run_workers
      rw [hstep, ih]

/-- Splitting a run: `a + b` iterations are `b` iterations after `a`. -/
theorem run_workers_add (fetch : ℕ → Option Response) (a b : ℕ) (s : RunState) :
    run_workers fetch (b + a) s = run_workers fetch b (run_workers fetch a s) := by
  induction a generalizing s with
  | zero => rfl
  | succ a ih =>
      rw [Nat.add_succ]
      show run_workers fetch (b + a) (worker_step fetch s) = _
      rw [ih]
      rfl

/-- C9: when a worker dequeues a task whose retry count is below the
cap but whose destination file already exists at processing time, the
only effect is removing the task from the queue: no fetch is performed,
`finishedTasks` is not incremented, the task is not re-enqueued, and no
diagnostic state is touched. -/
theorem C9_skip_existing_not_counted (fetch : ℕ → Option Response)
    (s : RunState) (task : DownloadTask) (rest : List DownloadTask)
    (hq : s.queue = task :: rest)
    (hc : s.error_count task.url < MAX_ERROR_COUNT)
    (hf : task.path ∈ s.files.map Prod.fst) :
    worker_step fetch s = { s with queue := rest } := by
  unfold worker_step
  rw [hq]
  simp only [hc, if_pos, hf, if_true]

/-- C9 witness: a concrete dequeue of a task whose file exists — the
state change is exactly the dequeue. -/
theorem C9_skip_existing_not_counted_witness :
    worker_step (fun _ => none)
      { queue := [⟨"u", "f", "p"⟩], error_count := fun _ => 0, finished := 3,
        files := [("p", [])], globalDownload := 9, fetchLog := ["v"],
        retired := ["w"] } =
      { queue := [], error_count := fun _ => 0, finished := 3,
        files := [("p", [])], globalDownload := 9, fetchLog := ["v"],
        retired := ["w"] } :=
  C9_skip_existing_not_counted (fun _ => none)
    { queue := [⟨"u", "f", "p"⟩], error_count := fun _ => 0, finished := 3,
      files := [("p", [])], globalDownload := 9, fetchLog := ["v"],
      retired := ["w"] }
    ⟨"u", "f", "p"⟩ [] rfl (by decide) (by decide)

/-- The `_error_count` map after one `worker_step` is either untouched
or a single-URL increment guarded by `count < _MAX_ERROR_COUNT`. -/
theorem worker_step_error_count_cases (fetch : ℕ → Option Response)
    (s : RunState) :
    (worker_step fetch s).error_count = s.error_count ∨
    ∃ url, s.error_count url < MAX_ERROR_COUNT ∧
      (worker_step fetch s).error_count =
        fun u => if u = url then s.error_count url + 1 else s.error_count u := by
  unfold worker_step
  split
  · exact Or.inl rfl
  next task rest heq =>
    dsimp only
    split
    next hc =>
      split
      · exact Or.inl rfl
      · split
        · exact Or.inr ⟨task.url, hc, rfl⟩
        · split
          next => exact Or.inl rfl
          next => exact Or.inr ⟨task.url, hc, rfl⟩
    next hc => exact Or.inl rfl

/-- In every branch of `worker_step`, a URL's `_error_count` entry is
either left unchanged or incremented by one, and the increment happens
only under the guard `count < _MAX_ERROR_COUNT`. -/
theorem worker_step_error_count (fetch : ℕ → Option Response) (s : RunState)
    (u : String) :
    (worker_step fetch s).error_count u = s.error_count u ∨
    (s.error_count u < MAX_ERROR_COUNT ∧
      (worker_step fetch s).error_count u = s.error_count u + 1) := by
  rcases worker_step_error_count_cases fetch s with h | ⟨url, hc, h⟩
  · exact Or.inl (by rw [h])
  · rw [h]
    by_cases hu : u = url
    · subst hu
      exact Or.inr ⟨hc, by simp⟩
    · exact Or.inl (by simp [hu])

/-- Along any run, all `_error_count` entries stay at or below the cap
provided they start there. -/
theorem run_workers_error_count_le (fetch : ℕ → Option Response) (n : ℕ) :
    ∀ s : RunState, (∀ v, s.error_count v ≤ MAX_ERROR_COUNT) →
      ∀ u, (run_workers fetch n s).error_count u ≤ MAX_ERROR_COUNT := by
  induction n with
  | zero => exact fun s h u => h u
  | succ n ih =>
      intro s h u
      refine ih (worker_step fetch s) (fun v => ?_) u
      rcases worker_step_error_count fetch s v with h1 | ⟨h2, h3⟩
      · rw [h1]; exact h v
      · rw [h3]; omega

/-- C6: the ErrorBudget cap — every code path of the worker that
increments a URL's retry count does so only when the current count is
strictly below `_MAX_ERROR_COUNT` (5), and consequently no URL's count
ever exceeds 5 at any point of a run that starts within the cap. -/
theorem C6_error_budget_cap (fetch : ℕ → Option Response) (s : RunState)
    (h : ∀ v, s.error_count v ≤ MAX_ERROR_COUNT) :
    (∀ s' u, (worker_step fetch s').error_count u = s'.error_count u ∨
      (s'.error_count u < MAX_ERROR_COUNT ∧
        (worker_step fetch s').error_count u = s'.error_count u + 1)) ∧
    (∀ n u, (run_workers fetch n s).error_count u ≤ MAX_ERROR_COUNT) :=
  ⟨fun s' u => worker_step_error_count fetch s' u,
   fun n u => run_workers_error_count_le fetch n s h u⟩

/-- C6 witness: the cap statement instantiated on a concrete
all-failing single-task run starting from a zeroed budget. -/
theorem C6_error_budget_cap_witness :
    (∀ s' u, (worker_step (fun _ => none) s').error_count u = s'.error_count u ∨
      (s'.error_count u < MAX_ERROR_COUNT ∧
        (worker_step (fun _ => none) s').error_count u = s'.error_count u + 1)) ∧
    (∀ n u, (run_workers (fun _ => none) n
        (init_state [⟨"u", "f", "p"⟩] (fun _ => 0) [])).error_count u
      ≤ MAX_ERROR_COUNT) :=
  C6_error_budget_cap (fun _ => none)
    (init_state [⟨"u", "f", "p"⟩] (fun _ => 0) [])
    (fun _ => by simp [init_state, MAX_ERROR_COUNT])

/-- On a failing response, `download_file` raises, leaves the
filesystem unchanged, and advances the byte counter by exactly the
received chunk lengths. -/
theorem download_file_fails (resp : Response) (filepath : String)
    (files : List (String × List Char)) (g : ℕ)
    (h : fetch_attempt_fails (some resp)) :
    ∃ e, download_file resp filepath files g =
      (Except.error e, files, g + failed_attempt_bytes (some resp)) := by
  unfold fetch_attempt_fails at h
  rcases resp with ⟨st, cl, ch, tr⟩
  dsimp only at h
  rcases h with h | ⟨hcl, htr⟩
  · exact ⟨DownloadError.connectionError st,
      by simp [download_file, failed_attempt_bytes, requests_codes_ok, h]⟩
  · subst htr
    by_cases hst : st = 200
    · rcases cl with _ | n
      · simp at hcl
      · exact ⟨DownloadError.networkFailure,
          by simp [download_file, failed_attempt_bytes, requests_codes_ok, hst]⟩
    · exact ⟨DownloadError.connectionError st,
        by simp [download_file, failed_attempt_bytes, requests_codes_ok, hst]⟩

/-- One `worker_step` on a below-cap task whose file is absent and
whose fetch attempt fails: the task is re-enqueued at the back, its
URL's budget is incremented, the attempt is logged, and nothing else
changes (in particular `finished`, `files` and `retired` are
untouched). -/
theorem worker_step_fail (fetch : ℕ → Option Response) (s : RunState)
    (task : DownloadTask) (rest : List DownloadTask)
    (hq : s.queue = task :: rest)
    (hc : s.error_count task.url < MAX_ERROR_COUNT)
    (hf : task.path ∉ s.files.map Prod.fst)
    (hfail : fetch_attempt_fails (fetch s.fetchLog.length)) :
    worker_step fetch s =
      { s with queue := rest ++ [task],
               error_count := fun u => if u = task.url
                 then s.error_count task.url + 1 else s.error_count u,
               globalDownload := s.globalDownload +
                 failed_attempt_bytes (fetch s.fetchLog.length),
               fetchLog := task.url :: s.fetchLog } := by
  unfold worker_step
  rw [hq]
  dsimp only
  rw [if_pos hc, if_neg hf]
  rcases hfetch : fetch s.fetchLog.length with _ | resp
  · rw [hfetch] at hfail
    rw [if_pos hc]
    simp [failed_attempt_bytes]
  · rw [hfetch] at hfail
    dsimp only
    obtain ⟨e, he⟩ := download_file_fails resp task.path s.files
      s.globalDownload hfail
    rw [he]
    dsimp only
    rw [if_pos hc]

/-- One `worker_step` on a task whose URL has exhausted its budget:
the task is retired — dequeued, counted as finished, and its URL logged
with the "reach max retries, canceled" diagnostic; no fetch happens. -/
theorem worker_step_retire (fetch : ℕ → Option Response) (s : RunState)
    (task : DownloadTask) (rest : List DownloadTask)
    (hq : s.queue = task :: rest)
    (hc : ¬ s.error_count task.url < MAX_ERROR_COUNT) :
    worker_step fetch s =
      { s with queue := rest, finished := s.finished + 1,
               retired := task.url :: s.retired } := by
  unfold worker_step
  rw [hq]
  dsimp only
  rw [if_neg hc]

/-- The failing phase of a single-task run: as long as the budget
lasts, each iteration re-attempts the fetch, increments the budget and
logs the attempt, leaving queue, `finished`, `files` and `retired` as
they were. -/
theorem run_fail_phase (fetch : ℕ → Option Response) (task : DownloadTask)
    (hfail : ∀ n, fetch_attempt_fails (fetch n)) :
    ∀ (k : ℕ) (s : RunState), s.queue = [task] →
      s.error_count task.url + k ≤ MAX_ERROR_COUNT →
      task.path ∉ s.files.map Prod.fst →
      (run_workers fetch k s).queue = [task] ∧
      (run_workers fetch k s).error_count =
        (fun u => if u = task.url then s.error_count task.url + k
          else s.error_count u) ∧
      (run_workers fetch k s).finished = s.finished ∧
      (run_workers fetch k s).files = s.files ∧
      (run_workers fetch k s).fetchLog =
        List.replicate k task.url ++ s.fetchLog ∧
      (run_workers fetch k s).retired = s.retired := by
  intro k
  induction k with
  | zero =>
      intro s hq _ _
      refine ⟨hq, ?_, rfl, rfl, rfl, rfl⟩
      funext u
      by_cases hu : u = task.url <;> simp [hu, run_workers]
  | succ k ih =>
      intro s hq hcap hfs
      have hc : s.error_count task.url < MAX_ERROR_COUNT := by omega
      have hstep := worker_step_fail fetch s task [] hq hc hfs
        (hfail s.fetchLog.length)
      have hrun : run_workers fetch (k + 1) s =
          run_workers fetch k (worker_step fetch s) := rfl
      have hsq : (worker_step fetch s).queue = [task] := by
        rw [hstep]
        rfl
      have hsec : (worker_step fetch s).error_count task.url =
          s.error_count task.url + 1 := by
        rw [hstep]
        dsimp only
        rw [if_pos rfl]
      have hsecu : ∀ u, u ≠ task.url →
          (worker_step fetch s).error_count u = s.error_count u := by
        intro u hu
        rw [hstep]
        dsimp only
        rw [if_neg hu]
      have hsfin : (worker_step fetch s).finished = s.finished := by rw [hstep]
      have hsfil : (worker_step fetch s).files = s.files := by rw [hstep]
      have hslog : (worker_step fetch s).fetchLog = task.url :: s.fetchLog := by
        rw [hstep]
      have hsret : (worker_step fetch s).retired = s.retired := by rw [hstep]
      obtain ⟨ih1, ih2, ih3, ih4, ih5, ih6⟩ := ih (worker_step fetch s) hsq
        (by rw [hsec]; omega) (by rw [hsfil]; exact hfs)
      rw [hrun]
      refine ⟨ih1, ?_, ih3.trans hsfin, ih4.trans hsfil, ?_, ih6.trans hsret⟩
      · rw [ih2]
        funext u
        by_cases hu : u = task.url
        · rw [if_pos hu, if_pos hu, hsec]
          omega
        · rw [if_neg hu, if_neg hu, hsecu u hu]
      · rw [ih5, hslog, List.replicate_succ', List.append_assoc]
        rfl

/-- C2: a task whose URL's fetch attempt fails on every try is fetched
exactly `_MAX_ERROR_COUNT` (5) times, then retired: the queue drains,
the "reach max retries, canceled" diagnostic is emitted for its URL,
`finished` is incremented for it, no destination file for it is ever on
disk, and no further fetch of the URL is ever attempted (the run state
is fixed from then on). -/
theorem C2_retry_bound (task : DownloadTask)
    (fs : List (String × List Char)) (fetch : ℕ → Option Response)
    (hfail : ∀ n, fetch_attempt_fails (fetch n))
    (hfs : task.path ∉ fs.map Prod.fst) :
    (run_workers fetch 6 (init_state [task] (fun _ => 0) fs)).queue = [] ∧
    (run_workers fetch 6 (init_state [task] (fun _ => 0) fs)).fetchLog =
      List.replicate 5 task.url ∧
    (run_workers fetch 6 (init_state [task] (fun _ => 0) fs)).finished = 1 ∧
    (run_workers fetch 6 (init_state [task] (fun _ => 0) fs)).retired =
      [task.url] ∧
    (run_workers fetch 6 (init_state [task] (fun _ => 0) fs)).files = fs ∧
    (∀ m, run_workers fetch (m + 6) (init_state [task] (fun _ => 0) fs) =
      run_workers fetch 6 (init_state [task] (fun _ => 0) fs)) := by
  have hphase := run_fail_phase fetch task hfail 5
    (init_state [task] (fun _ => 0) fs) rfl
    (by simp [init_state, MAX_ERROR_COUNT]) (by simpa [init_state] using hfs)
  obtain ⟨h1, h2, h3, h4, h5, h6⟩ := hphase
  have hec : (run_workers fetch 5 (init_state [task] (fun _ => 0) fs)).error_count
      task.url = 5 := by
    rw [h2]
    simp [init_state]
  have hretire := worker_step_retire fetch
    (run_workers fetch 5 (init_state [task] (fun _ => 0) fs)) task [] h1
    (by rw [hec]; unfold MAX_ERROR_COUNT; omega)
  have hrun6 : run_workers fetch 6 (init_state [task] (fun _ => 0) fs) =
      worker_step fetch (run_workers fetch 5 (init_state [task] (fun _ => 0) fs)) := by
    rw [show (6 : ℕ) = 1 + 5 from rfl, run_workers_add]
    rfl
  rw [hrun6, hretire]
  refine ⟨rfl, ?_, ?_, ?_, ?_, ?_⟩
  · dsimp only
    rw [h5]
    simp [init_state]
  · dsimp only
    rw [h3]
    simp [init_state]
  · dsimp only
    rw [h6]
    simp [init_state]
  · dsimp only
    exact h4.trans (by simp [init_state])
  · intro m
    rw [run_workers_add fetch 6 m, hrun6, hretire]
    exact run_workers_empty fetch m _ rfl

/-- C2 witness: a concrete task against an always-404 server — exactly
five logged attempts, then retirement, with the file absent. -/
theorem C2_retry_bound_witness :
    (run_workers (fun _ => some ⟨404, none, [], false⟩) 6
      (init_state [⟨"u", "f", "p"⟩] (fun _ => 0) [])).queue = [] ∧
    (run_workers (fun _ => some ⟨404, none, [], false⟩) 6
      (init_state [⟨"u", "f", "p"⟩] (fun _ => 0) [])).fetchLog =
      List.replicate 5 "u" ∧
    (run_workers (fun _ => some ⟨404, none, [], false⟩) 6
      (init_state [⟨"u", "f", "p"⟩] (fun _ => 0) [])).finished = 1 ∧
    (run_workers (fun _ => some ⟨404, none, [], false⟩) 6
      (init_state [⟨"u", "f", "p"⟩] (fun _ => 0) [])).retired = ["u"] ∧
    (run_workers (fun _ => some ⟨404, none, [], false⟩) 6
      (init_state [⟨"u", "f", "p"⟩] (fun _ => 0) [])).files = [] ∧
    (∀ m, run_workers (fun _ => some ⟨404, none, [], false⟩) (m + 6)
        (init_state [⟨"u", "f", "p"⟩] (fun _ => 0) []) =
      run_workers (fun _ => some ⟨404, none, [], false⟩) 6
        (init_state [⟨"u", "f", "p"⟩] (fun _ => 0) [])) :=
  C2_retry_bound ⟨"u", "f", "p"⟩ [] (fun _ => some ⟨404, none, [], false⟩)
    (fun _ => Or.inl (by decide)) (by decide)

/-- `finished + |queue|` never increases across one `worker_step`. -/
theorem worker_step_sum_le (fetch : ℕ → Option Response) (s : RunState) :
    (worker_step fetch s).finished + (worker_step fetch s).queue.length ≤
      s.finished + s.queue.length := by
  unfold worker_step
  split
  · exact le_rfl
  next task rest heq =>
    rw [heq]
    dsimp only
    split
    next hc =>
      split
      · dsimp only
        simp only [List.length_cons]
        omega
      · split
        · dsimp only
          simp only [List.length_append, List.length_cons, List.length_nil]
          omega
        · split
          · dsimp only
            simp only [List.length_cons]
            omega
          · dsimp only
            simp only [List.length_append, List.length_cons, List.length_nil]
            omega
    next hc =>
      dsimp only
      simp only [List.length_cons]
      omega

/-- `finished + |queue|` never increases along a run. -/
theorem run_workers_sum_le (fetch : ℕ → Option Response) (n : ℕ) :
    ∀ s : RunState,
      (run_workers fetch n s).finished + (run_workers fetch n s).queue.length ≤
        s.finished + s.queue.length := by
  induction n with
  | zero => exact fun s => le_rfl
  | succ n ih =>
      exact fun s => le_trans (ih (worker_step fetch s))
        (worker_step_sum_le fetch s)

/-- On an error, `download_file` leaves the filesystem unchanged. -/
theorem download_file_error_files (resp : Response) (filepath : String)
    (files : List (String × List Char)) (g : ℕ) (e : DownloadError)
    (h : (download_file resp filepath files g).1 = Except.error e) :
    (download_file resp filepath files g).2.1 = files := by
  revert h
  unfold download_file requests_codes_ok
  rcases resp with ⟨st, cl, ch, tr⟩
  by_cases hst : st = 200 <;> rcases cl with _ | n <;> cases tr <;>
    simp [hst]

/-- Any path present after a `download_file` call was present before,
or is the written destination. -/
theorem download_file_files_mem (resp : Response) (filepath : String)
    (files : List (String × List Char)) (g : ℕ) (x : String)
    (h : x ∈ (download_file resp filepath files g).2.1.map Prod.fst) :
    x = filepath ∨ x ∈ files.map Prod.fst := by
  revert h
  unfold download_file requests_codes_ok
  rcases resp with ⟨st, cl, ch, tr⟩
  by_cases hst : st = 200 <;> rcases cl with _ | n <;> cases tr <;>
    simp [hst] <;> tauto

/-- Core bookkeeping for a step that removes the head task and counts
it (success or retirement): invariants are preserved, the
`finished + |queue|` sum is exactly preserved, and the measure drops. -/
theorem dequeue_progress_core (s : RunState) (task : DownloadTask)
    (rest : List DownloadTask) (hq : s.queue = task :: rest)
    (hd : distinct_paths s) (hf : paths_fresh s) (s' : RunState)
    (hq' : s'.queue = rest) (hec' : s'.error_count = s.error_count)
    (hfin' : s'.finished = s.finished + 1)
    (hfiles' : ∀ x, x ∈ s'.files.map Prod.fst →
      x = task.path ∨ x ∈ s.files.map Prod.fst) :
    distinct_paths s' ∧ paths_fresh s' ∧
    s'.finished + s'.queue.length = s.finished + (task :: rest).length ∧
    state_measure s' < state_measure s := by
  have hdq : (task :: rest).Pairwise (fun a b => a.path ≠ b.path) := by
    unfold distinct_paths at hd
    rw [hq] at hd
    exact hd
  obtain ⟨hhead, hrest⟩ := List.pairwise_cons.mp hdq
  refine ⟨?_, ?_, ?_, ?_⟩
  · unfold distinct_paths
    rw [hq']
    exact hrest
  · intro t ht hmem
    rw [hq'] at ht
    rcases hfiles' t.path hmem with hpe | hin
    · exact hhead t ht hpe.symm
    · exact hf t (by rw [hq]; exact List.mem_cons_of_mem _ ht) hin
  · rw [hfin', hq']
    simp only [List.length_cons]
    omega
  · have hw : task_weight s' = task_weight s := by
      funext t
      unfold task_weight
      rw [hec']
    unfold state_measure
    rw [hq', hq, hw, List.map_cons, List.sum_cons]
    unfold task_weight
    omega

/-- Core bookkeeping for a failing step: the head task is re-enqueued
with its budget incremented; invariants are preserved, the sum is
exactly preserved, and the measure drops because the budget shrank. -/
theorem requeue_progress_core (s : RunState) (task : DownloadTask)
    (rest : List DownloadTask) (hq : s.queue = task :: rest)
    (hc : s.error_count task.url < MAX_ERROR_COUNT)
    (hd : distinct_paths s) (hf : paths_fresh s) (s' : RunState)
    (hq' : s'.queue = rest ++ [task])
    (hec' : s'.error_count = fun u => if u = task.url
      then s.error_count task.url + 1 else s.error_count u)
    (hfin' : s'.finished = s.finished)
    (hfiles' : s'.files = s.files) :
    distinct_paths s' ∧ paths_fresh s' ∧
    s'.finished + s'.queue.length = s.finished + (task :: rest).length ∧
    state_measure s' < state_measure s := by
  have hdq : (task :: rest).Pairwise (fun a b => a.path ≠ b.path) := by
    unfold distinct_paths at hd
    rw [hq] at hd
    exact hd
  obtain ⟨hhead, hrest⟩ := List.pairwise_cons.mp hdq
  refine ⟨?_, ?_, ?_, ?_⟩
  · unfold distinct_paths
    rw [hq', List.pairwise_append]
    refine ⟨hrest, by simp, ?_⟩
    intro a ha b hb
    rw [List.mem_singleton] at hb
    subst hb
    exact fun hab => hhead a ha hab.symm
  · intro t ht
    rw [hq'] at ht
    rw [hfiles']
    have htq : t ∈ s.queue := by
      rw [hq]
      rcases List.mem_append.mp ht with h1 | h1
      · exact List.mem_cons_of_mem _ h1
      · rw [List.mem_singleton] at h1
        subst h1
        exact List.mem_cons_self _ _
    exact hf t htq
  · rw [hfin', hq']
    simp only [List.length_append, List.length_cons, List.length_nil]
  · unfold state_measure
    rw [hq', hq, List.map_append, List.sum_append, List.map_cons,
      List.sum_cons, List.map_cons, List.map_nil, List.sum_cons,
      List.sum_nil]
    have hle : (rest.map (task_weight s')).sum ≤
        (rest.map (task_weight s)).sum := by
      apply List.sum_le_sum
      intro t ht
      unfold task_weight
      rw [hec']
      dsimp only
      by_cases hu : t.url = task.url
      · rw [if_pos hu, hu]
        omega
      · rw [if_neg hu]
    have hlt : task_weight s' task < task_weight s task := by
      unfold task_weight
      rw [hec']
      dsimp only
      rw [if_pos rfl]
      omega
    omega

/-- One `worker_step` on a non-empty queue with distinct, fresh
destination paths: the invariants persist, `finished + |queue|` is
exactly preserved, and the measure strictly decreases. -/
theorem worker_step_progress (fetch : ℕ → Option Response) (s : RunState)
    (task : DownloadTask) (rest : List DownloadTask)
    (hq : s.queue = task :: rest)
    (hd : distinct_paths s) (hf : paths_fresh s) :
    distinct_paths (worker_step fetch s) ∧
    paths_fresh (worker_step fetch s) ∧
    (worker_step fetch s).finished + (worker_step fetch s).queue.length =
      s.finished + s.queue.length ∧
    state_measure (worker_step fetch s) < state_measure s := by
  have hfile : task.path ∉ s.files.map Prod.fst :=
    hf task (by rw [hq]; exact List.mem_cons_self _ _)
  rw [show s.queue.length = (task :: rest).length from by rw [hq]]
  unfold worker_step
  rw [hq]
  dsimp only
  by_cases hc : s.error_count task.url < MAX_ERROR_COUNT
  · rw [if_pos hc, if_neg hfile]
    rcases hfetch : fetch s.fetchLog.length with _ | resp
    · dsimp only
      rw [if_pos hc]
      exact requeue_progress_core s task rest hq hc hd hf _ rfl rfl rfl rfl
    · dsimp only
      rcases hr : (download_file resp task.path s.files s.globalDownload).1
        with e | v
      · dsimp only
        rw [if_pos hc]
        exact requeue_progress_core s task rest hq hc hd hf _ rfl rfl rfl
          (download_file_error_files resp task.path s.files s.globalDownload
            e hr)
      · dsimp only
        exact dequeue_progress_core s task rest hq hd hf _ rfl rfl rfl
          (fun x hx => download_file_files_mem resp task.path s.files
            s.globalDownload x hx)
  · rw [if_neg hc]
    exact dequeue_progress_core s task rest hq hd hf _ rfl rfl rfl
      (fun x hx => Or.inr hx)

/-- Any run whose queued tasks have pairwise-distinct, not-yet-present
destination paths drains completely, with `finished` having counted
every initially queued task exactly once. -/
theorem run_drain (fetch : ℕ → Option Response) :
    ∀ (m : ℕ) (s : RunState), state_measure s ≤ m →
      distinct_paths s → paths_fresh s →
      ∃ n, (run_workers fetch n s).queue = [] ∧
        (run_workers fetch n s).finished = s.finished + s.queue.length := by
  intro m
  induction m with
  | zero =>
      intro s hm hd hf
      rcases hq : s.queue with _ | ⟨task, rest⟩
      · exact ⟨0, hq, by simp [run_workers, hq]⟩
      · exfalso
        unfold state_measure at hm
        rw [hq, List.map_cons, List.sum_cons] at hm
        unfold task_weight at hm
        omega
  | succ m ih =>
      intro s hm hd hf
      rcases hq : s.queue with _ | ⟨task, rest⟩
      · exact ⟨0, hq, by simp [run_workers, hq]⟩
      · obtain ⟨hd', hf', hsum, hlt⟩ :=
          worker_step_progress fetch s task rest hq hd hf
        rw [hq] at hsum
        obtain ⟨n, hqn, hfn⟩ := ih (worker_step fetch s) (by omega) hd' hf'
        exact ⟨n + 1, hqn, hfn.trans hsum⟩

/-- C1 (amended): for a run over a planned queue of `T` tasks,
`finishedTasks` never exceeds `T` at any point (unconditionally), and
— provided the queued destination paths are pairwise distinct and none
is already on disk, as the planner arranges — the worker pool drains
with `finishedTasks = T` exactly, which is also the progress reporter's
termination condition.  (When two queued tasks share a destination
path, the loser of the race is dropped without being counted and the
run ends with `finishedTasks < T`: see the counterexample.) -/
theorem C1_amended_completion (fetch : ℕ → Option Response)
    (q : List DownloadTask) (ec : String → ℕ) (fs : List (String × List Char))
    (hdist : q.Pairwise (fun a b => a.path ≠ b.path))
    (hfresh : ∀ t ∈ q, t.path ∉ fs.map Prod.fst) :
    (∀ n, (run_workers fetch n (init_state q ec fs)).finished ≤ q.length) ∧
    ∃ n, (run_workers fetch n (init_state q ec fs)).queue = [] ∧
      (run_workers fetch n (init_state q ec fs)).finished = q.length := by
  constructor
  · intro n
    have h := run_workers_sum_le fetch n (init_state q ec fs)
    have h0 : (init_state q ec fs).finished = 0 := rfl
    have hq0 : (init_state q ec fs).queue = q := rfl
    rw [h0, hq0] at h
    omega
  · obtain ⟨n, h1, h2⟩ := run_drain fetch (state_measure (init_state q ec fs))
      (init_state q ec fs) le_rfl hdist hfresh
    refine ⟨n, h1, ?_⟩
    rw [h2]
    simp [init_state]

/-- C1 witness: a fresh single-task run against an always-succeeding
server reaches `finished = totalTasks = 1` with the queue drained, and
never exceeds it. -/
theorem C1_amended_completion_witness :
    (∀ n, (run_workers (fun _ => some ⟨200, some 1, [['x']], false⟩) n
      (init_state [⟨"u", "f", "p"⟩] (fun _ => 0) [])).finished ≤ 1) ∧
    ∃ n, (run_workers (fun _ => some ⟨200, some 1, [['x']], false⟩) n
        (init_state [⟨"u", "f", "p"⟩] (fun _ => 0) [])).queue = [] ∧
      (run_workers (fun _ => some ⟨200, some 1, [['x']], false⟩) n
        (init_state [⟨"u", "f", "p"⟩] (fun _ => 0) [])).finished = 1 :=
  C1_amended_completion (fun _ => some ⟨200, some 1, [['x']], false⟩)
    [⟨"u", "f", "p"⟩] (fun _ => 0) [] (by simp) (by simp)

/-- C1 counterexample: with `totalTasks = 2` but colliding destination
paths, every fetch succeeding, the first task writes the file and the
second is skipped without being counted — the queue drains with
`finishedTasks = 1`, `finishedTasks` never reaches 2, so the progress
reporter (which loops until `finished == totalTasks`) never
terminates: the claimed completion invariant is false for this run. -/
theorem C1_counterexample :
    (run_workers cex_fetch 2 cex_init).queue = [] ∧
    (run_workers cex_fetch 2 cex_init).finished = 1 ∧
    (∀ n, (run_workers cex_fetch n cex_init).finished ≠ 2) ∧
    ¬ spec_completion_claim cex_fetch cex_init 2 := by
  have hq2 : (run_workers cex_fetch 2 cex_init).queue = [] := by decide
  have hne : ∀ n, (run_workers cex_fetch n cex_init).finished ≠ 2 := by
    intro n
    rcases n with _ | _ | k
    · decide
    · decide
    · rw [run_workers_add cex_fetch 2 k,
        run_workers_empty cex_fetch k _ hq2]
      decide
  refine ⟨hq2, by decide, hne, ?_⟩
  rintro ⟨-, n, -, hfn⟩
  exact hne n hfn

end Pixiv
